import Mathlib

/-
  Shallow embedding of the task-management platform's controller layer
  (Express + Prisma).  Sources:
    - src/unnamed/part_000        : project controller and user controller
    - src/backend/src/controllers/task.controller.ts : task controller
    - src/backend/src/middlewares/error.middleware.ts : Prisma error mapping
  Database rows are Lean structures, the database is a record of row lists,
  and every handler is a pure function from the database and the (already
  schema-validated, where the controller uses zod) request data to a
  response outcome plus the successor database.
-/

namespace TaskApp

/-- Project status enum (`ACTIVE`/`COMPLETED`/`ARCHIVED`, zod enum in
updateProjectSchema, src/unnamed/part_000 line 18). -/
inductive ProjectStatus where
  | ACTIVE
  | COMPLETED
  | ARCHIVED
deriving DecidableEq

/-- Task status enum (`TODO`/`IN_PROGRESS`/`IN_REVIEW`/`DONE`,
task.controller.ts line 20 and line 350). -/
inductive TaskStatus where
  | TODO
  | IN_PROGRESS
  | IN_REVIEW
  | DONE
deriving DecidableEq

/-- Task priority enum (`LOW`/`MEDIUM`/`HIGH`/`URGENT`, task.controller.ts
line 12). -/
inductive Priority where
  | LOW
  | MEDIUM
  | HIGH
  | URGENT
deriving DecidableEq

/-- User row.  Ids are abstracted to naturals; the password column is not
modelled (no claim touches authentication). -/
structure User where
  id : Nat
  email : String
  firstName : String
  lastName : String
  role : String
  isActive : Bool
deriving DecidableEq

/-- Project row.  Dates are abstracted to naturals. -/
structure Project where
  id : Nat
  name : String
  description : Option String
  status : ProjectStatus
  ownerId : Nat
  startDate : Option Nat
  endDate : Option Nat
  createdAt : Nat
deriving DecidableEq

/-- ProjectMember row (the Membership relation). -/
structure ProjectMember where
  id : Nat
  projectId : Nat
  userId : Nat
  role : String
deriving DecidableEq

/-- Task row. -/
structure Task where
  id : Nat
  title : String
  description : Option String
  status : TaskStatus
  priority : Priority
  projectId : Nat
  assigneeId : Option Nat
  dueDate : Option Nat
deriving DecidableEq

/-- Comment row. -/
structure Comment where
  id : Nat
  content : String
  taskId : Nat
  authorId : Nat
deriving DecidableEq

/-- The stored state the controllers query through Prisma. -/
structure DB where
  users : List User
  projects : List Project
  members : List ProjectMember
  tasks : List Task
  comments : List Comment
deriving DecidableEq

/-- Response outcome of a handler: `ok` carries the success message and the
returned row, `notFound` is the 404 branch, `badRequest` the 400 branch. -/
inductive Outcome (α : Type) where
  | ok (message : String) (data : α)
  | notFound (message : String)
  | badRequest (message : String)
deriving DecidableEq

/-! ### String search (Prisma `contains` with `mode: 'insensitive'`) -/

/-- `leadMatch n l` : `l` begins with `n`. -/
def leadMatch : List Char → List Char → Bool
  | [], _ => true
  | _ :: _, [] => false
  | a :: as, b :: bs => a == b && leadMatch as bs

/-- `subMatch n l` : `n` occurs as a contiguous run inside `l`. -/
def subMatch (needle : List Char) : List Char → Bool
  | [] => leadMatch needle []
  | b :: bs => leadMatch needle (b :: bs) || subMatch needle bs

/-- Case-insensitive substring test, the model of Prisma
`{ contains: search, mode: 'insensitive' }`. -/
def containsCI (hay needle : String) : Bool :=
  subMatch (needle.toList.map Char.toLower) (hay.toList.map Char.toLower)

/-- `contains` on a nullable column: a NULL column never matches. -/
def optContainsCI (hay : Option String) (needle : String) : Bool :=
  match hay with
  | none => false
  | some h => containsCI h needle

/-! ### Insertion sort used to model Prisma `orderBy` -/

/-- Insert `a` in front of the first element it is `le`-below. -/
def insertOrd (le : α → α → Bool) (a : α) : List α → List α
  | [] => [a]
  | b :: l => if le a b then a :: b :: l else b :: insertOrd le a l

/-- Insertion sort by a boolean comparator; models the ordered row set an
`orderBy` query returns. -/
def sortList (le : α → α → Bool) : List α → List α
  | [] => []
  | a :: l => insertOrd le a (sortList le l)

/-! ### The visibility predicate

The Prisma predicate `OR: [{ ownerId: userId }, { members: { some: { userId } } }]`
is repeated in every project- and task-scoped query
(src/unnamed/part_000 lines 32-37, 105-108, task.controller.ts lines 36-41,
112-117, 190-193, 281-287, 362-368, 416-422, 468-474). -/

/-- Actor `userId` can see project `p`: owner, or a membership row exists. -/
def projectVisible (db : DB) (userId : Nat) (p : Project) : Bool :=
  p.ownerId == userId ||
    db.members.any fun m => m.projectId == p.id && m.userId == userId

/-- Task visibility is inherited from the parent project
(`project: { OR: [...] }` relation filter). -/
def taskVisible (db : DB) (userId : Nat) (t : Task) : Bool :=
  db.projects.any fun p => p.id == t.projectId && projectVisible db userId p

/-! ### Listing order comparators -/

/-- Modelled from the spec: the database-level order of the `TaskStatus`
enum (the Prisma schema file fixing the enum declaration order is not in
the repository); the spec gives status ascending as
TODO, IN_PROGRESS, IN_REVIEW, DONE. -/
def statusRank : TaskStatus → Nat
  | .TODO => 0
  | .IN_PROGRESS => 1
  | .IN_REVIEW => 2
  | .DONE => 3

/-- Modelled from the spec: the database-level order of the `Priority` enum
(the Prisma schema file is not in the repository); the spec gives priority
descending as URGENT > HIGH > MEDIUM > LOW. -/
def priorityRank : Priority → Nat
  | .LOW => 0
  | .MEDIUM => 1
  | .HIGH => 2
  | .URGENT => 3

/-- Ascending order on nullable due dates with NULLs last (the PostgreSQL
default for `dueDate: 'asc'`). -/
def dueLe : Option Nat → Option Nat → Bool
  | some x, some y => decide (x ≤ y)
  | some _, none => true
  | none, some _ => false
  | none, none => true

/-- Comparator for `orderBy: [{status: 'asc'}, {priority: 'desc'},
{dueDate: 'asc'}]` (task.controller.ts lines 84-88). -/
def taskOrder (a b : Task) : Bool :=
  decide (statusRank a.status < statusRank b.status) ||
    (a.status == b.status &&
      (decide (priorityRank b.priority < priorityRank a.priority) ||
        (a.priority == b.priority && dueLe a.dueDate b.dueDate)))

/-- Comparator for `orderBy: { createdAt: 'desc' }`
(src/unnamed/part_000 lines 79-81). -/
def projectOrder (a b : Project) : Bool :=
  decide (b.createdAt ≤ a.createdAt)

/-- Lexicographic text order by code point (the database text collation,
abstracted). -/
def charListLe : List Char → List Char → Bool
  | [], _ => true
  | _ :: _, [] => false
  | a :: as, b :: bs => decide (a.toNat < b.toNat) || (a == b && charListLe as bs)

/-- Comparator for `orderBy: { firstName: 'asc' }`
(src/unnamed/part_000 lines 489-491). -/
def userOrder (a b : User) : Bool :=
  charListLe a.firstName.toList b.firstName.toList

/-! ### Project controller (src/unnamed/part_000) -/

/-- Row filter built by `getProjects` (lines 32-48).  The handler first sets
`where.OR` to the two visibility clauses; a `status` query parameter is
added as a separate conjunct; a `search` parameter however ASSIGNS
`where.OR` again (lines 43-48), replacing the visibility clauses with the
two search clauses, so with `search` present the predicate no longer
mentions the actor at all. -/
def getProjectsPred (db : DB) (userId : Nat) (statusF : Option ProjectStatus)
    (searchF : Option String) (p : Project) : Bool :=
  (match searchF with
   | none => projectVisible db userId p
   | some s => containsCI p.name s || optContainsCI p.description s) &&
  (match statusF with
   | none => true
   | some st => p.status == st)

/-- `getProjects` (lines 23-91): filtered rows ordered by creation time
descending. -/
def getProjects (db : DB) (userId : Nat) (statusF : Option ProjectStatus)
    (searchF : Option String) : List Project :=
  sortList projectOrder (db.projects.filter (getProjectsPred db userId statusF searchF))

/-- `getProject` (lines 93-165): `findFirst` on id plus visibility; `none`
is the 404 "Project not found" branch. -/
def getProject (db : DB) (userId pid : Nat) : Option Project :=
  db.projects.find? fun p => p.id == pid && projectVisible db userId p

/-- Post-zod payload of `updateProject` (updateProjectSchema, lines 15-21):
every field optional. -/
structure UpdateProjectData where
  name : Option String := none
  description : Option String := none
  status : Option ProjectStatus := none
  startDate : Option Nat := none
  endDate : Option Nat := none
deriving DecidableEq

/-- Field-wise application of an update payload: absent fields keep the
stored value (Prisma ignores `undefined` members of `data`). -/
def applyProjectUpdate (d : UpdateProjectData) (p : Project) : Project :=
  { p with
    name := d.name.getD p.name
    description := match d.description with
      | none => p.description
      | some s => some s
    status := d.status.getD p.status
    startDate := match d.startDate with
      | none => p.startDate
      | some x => some x
    endDate := match d.endDate with
      | none => p.endDate
      | some x => some x }

/-- `updateProject` (lines 213-285): `findFirst` on id plus `ownerId`
gates the mutation; failure is the single 404 branch used for both a
missing project and a non-owner actor. -/
def updateProject (db : DB) (userId pid : Nat) (d : UpdateProjectData) :
    Outcome Project × DB :=
  match db.projects.find? (fun p => p.id == pid && p.ownerId == userId) with
  | none => (.notFound "Project not found or you do not have permission to update it", db)
  | some p0 =>
    (.ok "Project updated successfully" (applyProjectUpdate d p0),
     { db with projects := db.projects.map fun p =>
        if p.id == pid then applyProjectUpdate d p else p })

/-- Successor state of a successful `deleteProject`: the project row goes,
and its membership rows, tasks and their comments go with it (relational
cascade; the schema file is not in the repository, the cascade is the
spec's stated data-model ownership). -/
def deleteProjectApply (db : DB) (pid : Nat) : DB :=
  { db with
    projects := db.projects.filter fun p => p.id != pid
    members := db.members.filter fun m => m.projectId != pid
    tasks := db.tasks.filter fun t => t.projectId != pid
    comments := db.comments.filter fun c =>
      !(db.tasks.any fun t => t.id == c.taskId && t.projectId == pid) }

/-- `deleteProject` (lines 287-323): owner-gated hard delete. -/
def deleteProject (db : DB) (userId pid : Nat) : Outcome Unit × DB :=
  match db.projects.find? (fun p => p.id == pid && p.ownerId == userId) with
  | none => (.notFound "Project not found or you do not have permission to delete it", db)
  | some _ => (.ok "Project deleted successfully" (), deleteProjectApply db pid)

/-- The membership row `addMember` creates (lines 369-374); a missing or
JS-falsy (empty) role defaults to "MEMBER". -/
def memberRow (newId pid vuid : Nat) (role : Option String) : ProjectMember :=
  { id := newId
    projectId := pid
    userId := vuid
    role := match role with
      | none => "MEMBER"
      | some r => if r == "" then "MEMBER" else r }

/-- `addMember` (lines 325-395): owner gate, then `findUnique` on the
`(projectId, userId)` pair; a duplicate is the 400 "already a member"
branch, otherwise the row is created. -/
def addMember (db : DB) (userId pid vuid : Nat) (role : Option String)
    (newId : Nat) : Outcome ProjectMember × DB :=
  match db.projects.find? (fun p => p.id == pid && p.ownerId == userId) with
  | none => (.notFound "Project not found or you do not have permission", db)
  | some _ =>
    match db.members.find? (fun m => m.projectId == pid && m.userId == vuid) with
    | some _ => (.badRequest "User is already a member of this project", db)
    | none =>
      (.ok "Member added successfully" (memberRow newId pid vuid role),
       { db with members := db.members ++ [memberRow newId pid vuid role] })

/-- `removeMember` (lines 397-435): the owner gate checks the project named
in the URL, then `prisma.projectMember.delete({ where: { id: memberId } })`
deletes the row by its row id with no check that the row belongs to that
project.  A missing row raises Prisma P2025, which the error middleware
maps to 404 "Record not found". -/
def removeMember (db : DB) (userId pid rowId : Nat) : Outcome Unit × DB :=
  match db.projects.find? (fun p => p.id == pid && p.ownerId == userId) with
  | none => (.notFound "Project not found or you do not have permission", db)
  | some _ =>
    if db.members.any (fun m => m.id == rowId) then
      (.ok "Member removed successfully" (),
       { db with members := db.members.filter fun m => m.id != rowId })
    else
      (.notFound "Record not found", db)

/-! ### Task controller (task.controller.ts) -/

/-- Row filter built by `getTasks` (lines 35-58): the project-visibility
relation filter plus four optional conjuncts; unlike `getProjects`, every
query parameter lands in its own `where` field, so nothing is overwritten. -/
def getTasksPred (db : DB) (userId : Nat) (projectIdF : Option Nat)
    (statusF : Option TaskStatus) (priorityF : Option Priority)
    (assigneeIdF : Option Nat) (t : Task) : Bool :=
  taskVisible db userId t &&
  (match projectIdF with
   | none => true
   | some x => t.projectId == x) &&
  (match statusF with
   | none => true
   | some x => t.status == x) &&
  (match priorityF with
   | none => true
   | some x => t.priority == x) &&
  (match assigneeIdF with
   | none => true
   | some x => t.assigneeId == some x)

/-- `getTasks` (lines 26-98): filtered rows in status-asc, priority-desc,
due-date-asc order. -/
def getTasks (db : DB) (userId : Nat) (projectIdF : Option Nat)
    (statusF : Option TaskStatus) (priorityF : Option Priority)
    (assigneeIdF : Option Nat) : List Task :=
  sortList taskOrder
    (db.tasks.filter (getTasksPred db userId projectIdF statusF priorityF assigneeIdF))

/-- `getTask` (lines 100-175): `findFirst` on id plus inherited project
visibility; `none` is the 404 "Task not found" branch. -/
def getTask (db : DB) (userId tid : Nat) : Option Task :=
  db.tasks.find? fun t => t.id == tid && taskVisible db userId t

/-- Post-zod payload of `createTask` (createTaskSchema, lines 8-15). -/
structure CreateTaskData where
  title : String
  description : Option String := none
  projectId : Nat
  priority : Option Priority := none
  dueDate : Option Nat := none
  assigneeId : Option Nat := none
deriving DecidableEq

/-- The task row `createTask` inserts: status defaults to TODO and an
absent priority to the column default MEDIUM (schema defaults; the schema
file is not in the repository, TODO-on-creation is the spec's scenario). -/
def mkTask (newId : Nat) (cd : CreateTaskData) : Task :=
  { id := newId
    title := cd.title
    description := cd.description
    status := .TODO
    priority := cd.priority.getD .MEDIUM
    projectId := cd.projectId
    assigneeId := cd.assigneeId
    dueDate := cd.dueDate }

/-- `createTask` (lines 177-265): actor must see the target project (404
otherwise); a supplied assignee must independently see the same project,
else the 400 "Assignee does not have access to this project" branch; then
the row is inserted. -/
def createTask (db : DB) (userId : Nat) (cd : CreateTaskData) (newId : Nat) :
    Outcome Task × DB :=
  match db.projects.find? (fun p => p.id == cd.projectId && projectVisible db userId p) with
  | none => (.notFound "Project not found or you do not have access", db)
  | some _ =>
    match cd.assigneeId with
    | some a =>
      if db.projects.any (fun p => p.id == cd.projectId && projectVisible db a p) then
        (.ok "Task created successfully" (mkTask newId cd),
         { db with tasks := db.tasks ++ [mkTask newId cd] })
      else
        (.badRequest "Assignee does not have access to this project", db)
    | none =>
      (.ok "Task created successfully" (mkTask newId cd),
       { db with tasks := db.tasks ++ [mkTask newId cd] })

/-- Post-zod payload of `updateTask` (updateTaskSchema, lines 17-24):
`assigneeId` is optional AND nullable, hence the nested option — `some
none` is an explicit null that clears the assignee. -/
structure UpdateTaskData where
  title : Option String := none
  description : Option String := none
  status : Option TaskStatus := none
  priority : Option Priority := none
  dueDate : Option Nat := none
  assigneeId : Option (Option Nat) := none
deriving DecidableEq

/-- Field-wise application of a task update payload. -/
def applyTaskUpdate (d : UpdateTaskData) (t : Task) : Task :=
  { t with
    title := d.title.getD t.title
    description := match d.description with
      | none => t.description
      | some s => some s
    status := d.status.getD t.status
    priority := d.priority.getD t.priority
    dueDate := match d.dueDate with
      | none => t.dueDate
      | some x => some x
    assigneeId := d.assigneeId.getD t.assigneeId }

/-- `updateTask` (lines 267-338): visibility-gated `findFirst`, then the
update is applied verbatim — in contrast to `createTask` there is NO check
that a supplied `assigneeId` can see the project. -/
def updateTask (db : DB) (userId tid : Nat) (d : UpdateTaskData) :
    Outcome Task × DB :=
  match db.tasks.find? (fun t => t.id == tid && taskVisible db userId t) with
  | none => (.notFound "Task not found or you do not have permission", db)
  | some t0 =>
    (.ok "Task updated successfully" (applyTaskUpdate d t0),
     { db with tasks := db.tasks.map fun t =>
        if t.id == tid then applyTaskUpdate d t else t })

/-- The status-string whitelist of `updateTaskStatus` (line 350):
`['TODO', 'IN_PROGRESS', 'IN_REVIEW', 'DONE'].includes(status)`. -/
def parseTaskStatus : String → Option TaskStatus
  | "TODO" => some .TODO
  | "IN_PROGRESS" => some .IN_PROGRESS
  | "IN_REVIEW" => some .IN_REVIEW
  | "DONE" => some .DONE
  | _ => none

/-- The wire form of a status value. -/
def statusText : TaskStatus → String
  | .TODO => "TODO"
  | .IN_PROGRESS => "IN_PROGRESS"
  | .IN_REVIEW => "IN_REVIEW"
  | .DONE => "DONE"

/-- `updateTaskStatus` (lines 340-401): the raw body string is whitelisted
first (400 "Invalid status" with no state change), then the
visibility-gated lookup, then the bare status write — no transition rule
relates the old and new status. -/
def updateTaskStatus (db : DB) (userId tid : Nat) (s : String) :
    Outcome Task × DB :=
  match parseTaskStatus s with
  | none => (.badRequest "Invalid status", db)
  | some st =>
    match db.tasks.find? (fun t => t.id == tid && taskVisible db userId t) with
    | none => (.notFound "Task not found or you do not have permission", db)
    | some t0 =>
      (.ok "Task status updated successfully" { t0 with status := st },
       { db with tasks := db.tasks.map fun t =>
          if t.id == tid then { t with status := st } else t })

/-- `deleteTask` (lines 403-444): visibility-gated hard delete; the task's
comments go with it (relational cascade). -/
def deleteTask (db : DB) (userId tid : Nat) : Outcome Unit × DB :=
  match db.tasks.find? (fun t => t.id == tid && taskVisible db userId t) with
  | none => (.notFound "Task not found or you do not have permission", db)
  | some _ =>
    (.ok "Task deleted successfully" (),
     { db with
        tasks := db.tasks.filter fun t => t.id != tid
        comments := db.comments.filter fun c => c.taskId != tid })

/-- `addComment` (lines 446-511): empty-after-trim content is the 400
branch before any lookup; then the visibility-gated lookup; then the
comment row is inserted. -/
def addComment (db : DB) (userId tid : Nat) (content : String) (newId : Nat) :
    Outcome Comment × DB :=
  if content.toList.all Char.isWhitespace then
    (.badRequest "Comment content is required", db)
  else
    match db.tasks.find? (fun t => t.id == tid && taskVisible db userId t) with
    | none => (.notFound "Task not found or you do not have permission", db)
    | some _ =>
      let c : Comment := { id := newId, content := content, taskId := tid, authorId := userId }
      (.ok "Comment added successfully" c, { db with comments := db.comments ++ [c] })

/-! ### User controller (src/unnamed/part_000, second file) -/

/-- Row filter built by `getUsers` (lines 462-476): `isActive: true` is
unconditional; `search` lands in `where.OR` (a fresh field here, nothing is
overwritten) and `role` in `where.role`. -/
def getUsersPred (searchF roleF : Option String) (u : User) : Bool :=
  u.isActive &&
  (match searchF with
   | none => true
   | some s => containsCI u.firstName s || containsCI u.lastName s || containsCI u.email s) &&
  (match roleF with
   | none => true
   | some r => u.role == r)

/-- `getUsers` (lines 454-501): active users matching the filters, ordered
by first name ascending. -/
def getUsers (db : DB) (searchF roleF : Option String) : List User :=
  sortList userOrder (db.users.filter (getUsersPred searchF roleF))

/-- `getUser` (lines 503-547): `findUnique` on the id alone — no
visibility condition and no `isActive` condition; `none` is the 404
"User not found" branch. -/
def getUser (db : DB) (i : Nat) : Option User :=
  db.users.find? fun u => u.id == i

/-! ### The data-model invariant of claim C4 -/

/-- A task's assignee, when set, can see the task's project
(owner-or-member). -/
def assigneeOk (db : DB) (t : Task) : Bool :=
  match t.assigneeId with
  | none => true
  | some a => db.projects.any fun p => p.id == t.projectId && projectVisible db a p

/-- Every stored task satisfies `assigneeOk`. -/
def assigneeInvariant (db : DB) : Bool :=
  db.tasks.all (assigneeOk db)

/-- Number of membership rows for one `(projectId, userId)` pair. -/
def pairCount (db : DB) (pid vuid : Nat) : Nat :=
  (db.members.filter fun m => m.projectId == pid && m.userId == vuid).length

/-- A list is ordered with respect to a boolean comparator. -/
def SortedBy (le : α → α → Bool) (l : List α) : Prop :=
  l.Pairwise fun x y => le x y = true

/-! ### Helper lemmas about the sort and about `find?` -/

theorem mem_insertOrd {le : α → α → Bool} {x a : α} {l : List α} :
    x ∈ insertOrd le a l ↔ x = a ∨ x ∈ l := by
  induction l with
  | nil => simp [insertOrd]
  | cons b l ih =>
    simp only [insertOrd]
    split
    · simp [List.mem_cons]
    · simp only [List.mem_cons, ih]
      tauto

theorem mem_sortList {le : α → α → Bool} {x : α} {l : List α} :
    x ∈ sortList le l ↔ x ∈ l := by
  induction l with
  | nil => simp [sortList]
  | cons a l ih => simp [sortList, mem_insertOrd, ih, List.mem_cons]

theorem sortedBy_insertOrd {le : α → α → Bool}
    (tot : ∀ a b, le a b = true ∨ le b a = true)
    (tr : ∀ a b c, le a b = true → le b c = true → le a c = true)
    (a : α) {l : List α} (h : SortedBy le l) : SortedBy le (insertOrd le a l) := by
  induction l with
  | nil => simp [insertOrd, SortedBy]
  | cons b l ih =>
    rcases List.pairwise_cons.mp h with ⟨hb, hl⟩
    by_cases hab : le a b = true
    · simp only [insertOrd, if_pos hab]
      refine List.pairwise_cons.mpr ⟨?_, h⟩
      intro x hx
      rcases List.mem_cons.mp hx with rfl | hx
      · exact hab
      · exact tr _ _ _ hab (hb x hx)
    · have hba : le b a = true := (tot a b).resolve_left hab
      simp only [insertOrd, if_neg hab]
      refine List.pairwise_cons.mpr ⟨?_, ih hl⟩
      intro x hx
      rcases mem_insertOrd.mp hx with rfl | hx
      · exact hba
      · exact hb x hx

theorem sortedBy_sortList {le : α → α → Bool}
    (tot : ∀ a b, le a b = true ∨ le b a = true)
    (tr : ∀ a b c, le a b = true → le b c = true → le a c = true)
    (l : List α) : SortedBy le (sortList le l) := by
  induction l with
  | nil => exact List.Pairwise.nil
  | cons a l ih => exact sortedBy_insertOrd tot tr a ih

theorem find?_eq_none_of_any_eq_false {p : α → Bool} {l : List α}
    (h : l.any p = false) : l.find? p = none := by
  rw [List.find?_eq_none]
  intro x hx hpx
  have h2 : l.any p = true := List.any_eq_true.mpr ⟨x, hx, hpx⟩
  rw [h] at h2
  cases h2

theorem find?_eq_some_of_unique {p : α → Bool} {l : List α} {a : α}
    (ha : a ∈ l) (hpa : p a = true)
    (huniq : ∀ b ∈ l, p b = true → b = a) :
    l.find? p = some a := by
  induction l with
  | nil => cases ha
  | cons x l ih =>
    cases hpx : p x with
    | true =>
      have hxa : x = a := huniq x (List.mem_cons_self x l) hpx
      subst hxa
      simp [List.find?, hpx]
    | false =>
      have hax : a ≠ x := by
        intro h
        rw [h, hpx] at hpa
        cases hpa
      have ha2 : a ∈ l := by
        rcases List.mem_cons.mp ha with h | h
        · exact absurd h hax
        · exact h
      simp only [List.find?, hpx]
      exact ih ha2 fun b hb hpb => huniq b (List.mem_cons_of_mem x hb) hpb

/-! ### Facts about the listing comparators -/

theorem statusRank_inj : ∀ s t : TaskStatus, statusRank s = statusRank t → s = t := by
  intro s t
  cases s <;> cases t <;> simp [statusRank]

theorem priorityRank_inj : ∀ s t : Priority, priorityRank s = priorityRank t → s = t := by
  intro s t
  cases s <;> cases t <;> simp [priorityRank]

theorem dueLe_total : ∀ a b : Option Nat, dueLe a b = true ∨ dueLe b a = true := by
  intro a b
  cases a <;> cases b <;> simp [dueLe] <;> omega

theorem dueLe_trans : ∀ a b c : Option Nat,
    dueLe a b = true → dueLe b c = true → dueLe a c = true := by
  intro a b c
  cases a <;> cases b <;> cases c <;> simp [dueLe] <;> omega

theorem taskOrder_total (a b : Task) : taskOrder a b = true ∨ taskOrder b a = true := by
  simp only [taskOrder, Bool.or_eq_true, Bool.and_eq_true, decide_eq_true_eq, beq_iff_eq]
  rcases Nat.lt_trichotomy (statusRank a.status) (statusRank b.status) with h | h | h
  · exact Or.inl (Or.inl h)
  · have hs : a.status = b.status := statusRank_inj _ _ h
    rcases Nat.lt_trichotomy (priorityRank a.priority) (priorityRank b.priority) with h2 | h2 | h2
    · exact Or.inr (Or.inr ⟨hs.symm, Or.inl h2⟩)
    · have hp : a.priority = b.priority := priorityRank_inj _ _ h2
      rcases dueLe_total a.dueDate b.dueDate with h3 | h3
      · exact Or.inl (Or.inr ⟨hs, Or.inr ⟨hp, h3⟩⟩)
      · exact Or.inr (Or.inr ⟨hs.symm, Or.inr ⟨hp.symm, h3⟩⟩)
    · exact Or.inl (Or.inr ⟨hs, Or.inl h2⟩)
  · exact Or.inr (Or.inl h)

theorem taskOrder_trans (a b c : Task)
    (h1 : taskOrder a b = true) (h2 : taskOrder b c = true) : taskOrder a c = true := by
  simp only [taskOrder, Bool.or_eq_true, Bool.and_eq_true, decide_eq_true_eq,
    beq_iff_eq] at h1 h2 ⊢
  rcases h1 with h1 | ⟨hs1, h1⟩
  · rcases h2 with h2 | ⟨hs2, _⟩
    · exact Or.inl (Nat.lt_trans h1 h2)
    · rw [hs2] at h1
      exact Or.inl h1
  · rcases h2 with h2 | ⟨hs2, h2⟩
    · rw [hs1]
      exact Or.inl h2
    · refine Or.inr ⟨hs1.trans hs2, ?_⟩
      rcases h1 with h1 | ⟨hp1, d1⟩
      · rcases h2 with h2 | ⟨hp2, _⟩
        · exact Or.inl (Nat.lt_trans h2 h1)
        · rw [hp2] at h1
          exact Or.inl h1
      · rcases h2 with h2 | ⟨hp2, d2⟩
        · rw [← hp1] at h2
          exact Or.inl h2
        · exact Or.inr ⟨hp1.trans hp2, dueLe_trans _ _ _ d1 d2⟩

theorem projectOrder_total (a b : Project) :
    projectOrder a b = true ∨ projectOrder b a = true := by
  simp only [projectOrder, decide_eq_true_eq]
  omega

theorem projectOrder_trans (a b c : Project)
    (h1 : projectOrder a b = true) (h2 : projectOrder b c = true) :
    projectOrder a c = true := by
  simp only [projectOrder, decide_eq_true_eq] at h1 h2 ⊢
  omega

/-! ### Concrete states used by the claim theorems -/

/-- A project owned by user 5, with no members. -/
def c1Project : Project :=
  { id := 1, name := "Website Redesign", description := none, status := .ACTIVE,
    ownerId := 5, startDate := none, endDate := none, createdAt := 0 }

def c1DB : DB :=
  { users := [], projects := [c1Project], members := [], tasks := [], comments := [] }

def c2P : Project :=
  { id := 1, name := "Alpha", description := none, status := .ACTIVE,
    ownerId := 1, startDate := none, endDate := none, createdAt := 0 }

def c2DB : DB :=
  { users := [], projects := [c2P], members := [], tasks := [], comments := [] }

def c8P : Project :=
  { id := 1, name := "Beta", description := none, status := .ACTIVE,
    ownerId := 5, startDate := none, endDate := none, createdAt := 0 }

def c8T : Task :=
  { id := 1, title := "Ship it", description := none, status := .TODO,
    priority := .MEDIUM, projectId := 1, assigneeId := none, dueDate := none }

def c8DB : DB :=
  { users := [], projects := [c8P], members := [], tasks := [c8T], comments := [] }

/-- A deactivated user. -/
def c10U : User :=
  { id := 1, email := "gone@example.com", firstName := "Gone", lastName := "User",
    role := "USER", isActive := false }

def c10DB : DB :=
  { users := [c10U], projects := [], members := [], tasks := [], comments := [] }

/-! ### Claim theorems -/

/-- C1: the claim says every filtered listing stays inside the actor's
unfiltered visible set.  It fails on `getProjects` with a `search` filter:
user 7 is neither owner nor member of the only stored project, yet the
search listing returns that project, because the handler assigns
`where.OR` a second time for `search` (src/unnamed/part_000 lines 43-48),
replacing the owner-or-member visibility clauses it had put there. -/
theorem c1_search_filter_widens :
    projectVisible c1DB 7 c1Project = false ∧
    c1Project ∈ getProjects c1DB 7 none (some "redesign") := by
  decide

/-- C2: a stored project appears in the unfiltered `getProjects` listing
for an actor exactly when the actor is its owner or holds a membership row
for it, and `getProject` returns it to the actor under exactly the same
predicate. -/
theorem c2_project_visibility_iff (db : DB) (uid : Nat) (p : Project)
    (hid : (db.projects.map Project.id).Nodup) (hp : p ∈ db.projects) :
    (p ∈ getProjects db uid none none ↔ projectVisible db uid p = true) ∧
    (getProject db uid p.id = some p ↔ projectVisible db uid p = true) := by
  constructor
  · rw [getProjects, mem_sortList, List.mem_filter]
    constructor
    · rintro ⟨_, hpred⟩
      simpa [getProjectsPred] using hpred
    · intro hvis
      exact ⟨hp, by simp [getProjectsPred, hvis]⟩
  · constructor
    · intro hfind
      have h := List.find?_some hfind
      simp only [Bool.and_eq_true] at h
      exact h.2
    · intro hvis
      apply find?_eq_some_of_unique hp
      · simp [hvis]
      · intro b hb hpb
        simp only [Bool.and_eq_true, beq_iff_eq] at hpb
        exact List.inj_on_of_nodup_map hid hb hp hpb.1

/-- Witness for C2 at a concrete state: user 1 owns the stored project. -/
theorem c2_project_visibility_iff_witness :
    (c2P ∈ getProjects c2DB 1 none none ↔ projectVisible c2DB 1 c2P = true) ∧
    (getProject c2DB 1 c2P.id = some c2P ↔ projectVisible c2DB 1 c2P = true) :=
  c2_project_visibility_iff c2DB 1 c2P (by decide) (by decide)

/-- C8: for a visible task, `updateTaskStatus` accepts exactly the four
wire statuses — each of them, whatever the task's current status, so
backward moves and skips such as TODO directly to DONE go through — and
rejects any other string with the 400 "Invalid status" branch, leaving the
state unchanged. -/
theorem c8_status_any_transition (db : DB) (uid tid : Nat) (s : String) (T : Task)
    (hid : (db.tasks.map Task.id).Nodup) (hT : T ∈ db.tasks) (htid : T.id = tid)
    (hvis : taskVisible db uid T = true) :
    (∀ st : TaskStatus, parseTaskStatus s = some st →
      updateTaskStatus db uid tid s =
        (.ok "Task status updated successfully" { T with status := st },
         { db with tasks := db.tasks.map fun t =>
            if t.id == tid then { t with status := st } else t })) ∧
    (parseTaskStatus s = none →
      updateTaskStatus db uid tid s = (.badRequest "Invalid status", db)) ∧
    ((parseTaskStatus s).isSome = true ↔
      s = "TODO" ∨ s = "IN_PROGRESS" ∨ s = "IN_REVIEW" ∨ s = "DONE") := by
  have hfind : db.tasks.find? (fun t => t.id == tid && taskVisible db uid t) = some T := by
    apply find?_eq_some_of_unique hT
    · simp [htid, hvis]
    · intro b hb hpb
      simp only [Bool.and_eq_true, beq_iff_eq] at hpb
      exact List.inj_on_of_nodup_map hid hb hT (by rw [hpb.1, htid])
  refine ⟨?_, ?_, ?_⟩
  · intro st hst
    simp [updateTaskStatus, hst, hfind]
  · intro hnone
    simp [updateTaskStatus, hnone]
  · constructor
    · intro h
      unfold parseTaskStatus at h
      split at h
      · exact Or.inl rfl
      · exact Or.inr (Or.inl rfl)
      · exact Or.inr (Or.inr (Or.inl rfl))
      · exact Or.inr (Or.inr (Or.inr rfl))
      · cases h
    · rintro (rfl | rfl | rfl | rfl) <;> decide

/-- Witness for C8 at a concrete state: the owner moves a TODO task
directly to DONE. -/
theorem c8_status_any_transition_witness :
    updateTaskStatus c8DB 5 1 "DONE" =
      (.ok "Task status updated successfully" { c8T with status := .DONE },
       { c8DB with tasks := c8DB.tasks.map fun t =>
          if t.id == 1 then { t with status := .DONE } else t }) :=
  (c8_status_any_transition c8DB 5 1 "DONE" c8T (by decide) (by decide) rfl
    (by decide)).1 .DONE (by decide)

/-- C9: every task listing is sorted by status ascending, then priority
descending (URGENT > HIGH > MEDIUM > LOW), then due date ascending with
missing due dates last, and every project listing is sorted by creation
time descending. -/
theorem c9_listing_order (db : DB) (uid : Nat) (pf : Option Nat)
    (sf : Option TaskStatus) (prf : Option Priority) (af : Option Nat)
    (pst : Option ProjectStatus) (se : Option String) :
    SortedBy taskOrder (getTasks db uid pf sf prf af) ∧
    SortedBy projectOrder (getProjects db uid pst se) :=
  ⟨sortedBy_sortList taskOrder_total taskOrder_trans _,
   sortedBy_sortList projectOrder_total projectOrder_trans _⟩

/-- C10: `getUser` answers by id alone — a stored user is returned to any
authenticated actor whether or not that user is active, and "not found"
arises only when no user has the id — while `getUsers` only ever returns
active users. -/
theorem c10_user_reads (db : DB) (i : Nat) (s r : Option String) (u : User)
    (hid : (db.users.map User.id).Nodup) :
    (u ∈ db.users → u.id = i → getUser db i = some u) ∧
    (db.users.all (fun v => v.id != i) = true → getUser db i = none) ∧
    (∀ v ∈ getUsers db s r, v.isActive = true) := by
  refine ⟨?_, ?_, ?_⟩
  · intro hu hui
    apply find?_eq_some_of_unique hu
    · simp [hui]
    · intro b hb hpb
      simp only [beq_iff_eq] at hpb
      exact List.inj_on_of_nodup_map hid hb hu (by rw [hpb, hui])
  · intro hall
    cases hany : db.users.any (fun v => v.id == i) with
    | false => exact find?_eq_none_of_any_eq_false hany
    | true =>
      exfalso
      obtain ⟨v, hv, hvi⟩ := List.any_eq_true.mp hany
      have hne := List.all_eq_true.mp hall v hv
      simp only [bne_iff_ne, ne_eq] at hne
      simp only [beq_iff_eq] at hvi
      exact hne hvi
  · intro v hv
    rw [getUsers, mem_sortList, List.mem_filter] at hv
    have h := hv.2
    simp only [getUsersPred, Bool.and_eq_true] at h
    exact h.1.1

/-- Witness for C10 at a concrete state: the stored user is deactivated,
`getUser` still returns them and `getUsers` omits them. -/
theorem c10_user_reads_witness :
    getUser c10DB 1 = some c10U ∧ (∀ v ∈ getUsers c10DB none none, v.isActive = true) := by
  have h := c10_user_reads c10DB 1 none none c10U (by decide)
  exact ⟨h.1 (by decide) rfl, h.2.2⟩

/-! ### C3: the uniform "not found" outcome -/

/-- A project invisible to user 7 and a task under it. -/
def c3P : Project :=
  { id := 1, name := "Hidden", description := none, status := .ACTIVE,
    ownerId := 5, startDate := none, endDate := none, createdAt := 0 }

def c3T : Task :=
  { id := 1, title := "Hidden task", description := none, status := .TODO,
    priority := .LOW, projectId := 1, assigneeId := none, dueDate := none }

def c3DB : DB :=
  { users := [], projects := [c3P], members := [], tasks := [c3T], comments := [] }

/-- C3: every single-resource read or write — getProject, updateProject,
deleteProject, getTask, updateTask, updateTaskStatus (with a valid status
string), deleteTask, addComment (with non-blank content) — returns one
fixed "not found" outcome and leaves the state unchanged whenever no
stored target passes the operation's access predicate for the actor.
Since that hypothesis covers the does-not-exist case and the
exists-but-unauthorized case alike, the two produce literally the same
response and are indistinguishable. -/
theorem c3_not_found_uniform (db : DB) (uid pid tid cid : Nat)
    (dp : UpdateProjectData) (dt : UpdateTaskData) (st : TaskStatus) (content : String)
    (hnv : db.projects.any (fun p => p.id == pid && projectVisible db uid p) = false)
    (hno : db.projects.any (fun p => p.id == pid && p.ownerId == uid) = false)
    (hnt : db.tasks.any (fun t => t.id == tid && taskVisible db uid t) = false)
    (hc : content.toList.all Char.isWhitespace = false) :
    getProject db uid pid = none ∧
    updateProject db uid pid dp =
      (.notFound "Project not found or you do not have permission to update it", db) ∧
    deleteProject db uid pid =
      (.notFound "Project not found or you do not have permission to delete it", db) ∧
    getTask db uid tid = none ∧
    updateTask db uid tid dt =
      (.notFound "Task not found or you do not have permission", db) ∧
    updateTaskStatus db uid tid (statusText st) =
      (.notFound "Task not found or you do not have permission", db) ∧
    deleteTask db uid tid = (.notFound "Task not found or you do not have permission", db) ∧
    addComment db uid tid content cid =
      (.notFound "Task not found or you do not have permission", db) := by
  have hfv := find?_eq_none_of_any_eq_false hnv
  have hfo := find?_eq_none_of_any_eq_false hno
  have hft := find?_eq_none_of_any_eq_false hnt
  have hparse : parseTaskStatus (statusText st) = some st := by
    cases st <;> rfl
  refine ⟨hfv, ?_, ?_, hft, ?_, ?_, ?_, ?_⟩
  · simp [updateProject, hfo]
  · simp [deleteProject, hfo]
  · simp [updateTask, hft]
  · simp [updateTaskStatus, hparse, hft]
  · simp [deleteTask, hft]
  · unfold addComment
    rw [hc]
    simp [hft]

/-- Witness for C3 at a concrete state of the exists-but-unauthorized
kind: project 1 and task 1 are stored but user 7 is owner of neither and
member of nothing. -/
theorem c3_not_found_uniform_witness :
    getProject c3DB 7 1 = none ∧
    updateProject c3DB 7 1 {} =
      (.notFound "Project not found or you do not have permission to update it", c3DB) ∧
    getTask c3DB 7 1 = none := by
  have h := c3_not_found_uniform c3DB 7 1 1 1 {} {} .DONE "leak"
    (by decide) (by decide) (by decide) (by decide)
  exact ⟨h.1, h.2.1, h.2.2.2.1⟩

/-! ### C5: assignee validation on task creation -/

def c5P : Project :=
  { id := 1, name := "Gamma", description := none, status := .ACTIVE,
    ownerId := 5, startDate := none, endDate := none, createdAt := 0 }

def c5M : ProjectMember :=
  { id := 20, projectId := 1, userId := 6, role := "DEVELOPER" }

def c5DB : DB :=
  { users := [], projects := [c5P], members := [c5M], tasks := [], comments := [] }

def c5CD : CreateTaskData :=
  { title := "New task", projectId := 1, assigneeId := some 6 }

def c5CDBad : CreateTaskData :=
  { title := "New task", projectId := 1, assigneeId := some 9 }

/-- C5: when the actor can see the target project and an assignee is
supplied, createTask inserts the row exactly when the assignee is owner or
member of that project; otherwise it fails with the 400 validation branch
naming the assignee and the state is unchanged — not with the "not found"
outcome. -/
theorem c5_create_task_assignee (db : DB) (uid a nid : Nat) (P : Project)
    (cd : CreateTaskData)
    (hid : (db.projects.map Project.id).Nodup) (hP : P ∈ db.projects)
    (hvis : projectVisible db uid P = true) (hpid : cd.projectId = P.id)
    (ha : cd.assigneeId = some a) :
    (projectVisible db a P = true →
      createTask db uid cd nid =
        (.ok "Task created successfully" (mkTask nid cd),
         { db with tasks := db.tasks ++ [mkTask nid cd] })) ∧
    (projectVisible db a P = false →
      createTask db uid cd nid =
        (.badRequest "Assignee does not have access to this project", db)) := by
  have hfind : db.projects.find? (fun p => p.id == cd.projectId && projectVisible db uid p)
      = some P := by
    apply find?_eq_some_of_unique hP
    · simp [hpid, hvis]
    · intro b hb hpb
      simp only [Bool.and_eq_true, beq_iff_eq] at hpb
      exact List.inj_on_of_nodup_map hid hb hP (by rw [hpb.1, hpid])
  constructor
  · intro hacc
    have hany : db.projects.any (fun p => p.id == cd.projectId && projectVisible db a p)
        = true :=
      List.any_eq_true.mpr ⟨P, hP, by simp [hpid, hacc]⟩
    simp [createTask, hfind, ha, hany]
  · intro hacc
    have hany : db.projects.any (fun p => p.id == cd.projectId && projectVisible db a p)
        = false := by
      cases h2 : db.projects.any (fun p => p.id == cd.projectId && projectVisible db a p) with
      | false => rfl
      | true =>
        exfalso
        obtain ⟨q, hq, hq2⟩ := List.any_eq_true.mp h2
        simp only [Bool.and_eq_true, beq_iff_eq] at hq2
        have hqP : q = P := List.inj_on_of_nodup_map hid hq hP (by rw [hq2.1, hpid])
        rw [hqP] at hq2
        rw [hq2.2] at hacc
        cases hacc
    simp [createTask, hfind, ha, hany]

/-- Witness for C5 at a concrete state: assigning to member 6 creates the
task, assigning to outsider 9 is the validation failure. -/
theorem c5_create_task_assignee_witness :
    createTask c5DB 5 c5CD 30 =
      (.ok "Task created successfully" (mkTask 30 c5CD),
       { c5DB with tasks := c5DB.tasks ++ [mkTask 30 c5CD] }) ∧
    createTask c5DB 5 c5CDBad 30 =
      (.badRequest "Assignee does not have access to this project", c5DB) :=
  ⟨(c5_create_task_assignee c5DB 5 6 30 c5P c5CD (by decide) (by decide)
      (by decide) (by decide) (by decide)).1 (by decide),
   (c5_create_task_assignee c5DB 5 9 30 c5P c5CDBad (by decide) (by decide)
      (by decide) (by decide) (by decide)).2 (by decide)⟩

/-! ### C6: owner gating of project mutations and the removeMember scope -/

def c6P1 : Project :=
  { id := 1, name := "Mine", description := none, status := .ACTIVE,
    ownerId := 5, startDate := none, endDate := none, createdAt := 0 }

def c6P2 : Project :=
  { id := 2, name := "Theirs", description := none, status := .ACTIVE,
    ownerId := 9, startDate := none, endDate := none, createdAt := 0 }

/-- A membership row that belongs to project 2, which user 5 does not own. -/
def c6M : ProjectMember :=
  { id := 10, projectId := 2, userId := 7, role := "MEMBER" }

def c6DB : DB :=
  { users := [], projects := [c6P1, c6P2], members := [c6M], tasks := [], comments := [] }

/-- C6 counterexample: the claim says removeMember deletes a membership
row only when that row belongs to a project owned by the actor.  User 5
owns project 1 but not project 2; calling removeMember on project 1 with
the row id of project 2's membership row succeeds and deletes that row,
because the handler deletes by row id without checking the row's project
(src/unnamed/part_000 lines 422-426). -/
theorem c6_remove_member_cross_project :
    (∀ p ∈ c6DB.projects, p.id = c6M.projectId → p.ownerId ≠ 5) ∧
    removeMember c6DB 5 1 10 =
      (.ok "Member removed successfully" (), { c6DB with members := [] }) := by
  decide

/-- C6 amended: updateProject, deleteProject, addMember and removeMember
are each gated on ownership of the project named in the request — a
non-owner gets the uniform "not found" with no state change, while for
the owner the mutation goes through — but once the gate for the named
project passes, removeMember deletes the membership row with the given
row id wherever it lives: the row need not belong to the named project or
to any project the actor owns. -/
theorem c6_owner_gated_mutations (db : DB) (uid pid rowId vuid nid : Nat)
    (dp : UpdateProjectData) (role : Option String) (P : Project)
    (hid : (db.projects.map Project.id).Nodup) (hP : P ∈ db.projects)
    (hpid : P.id = pid) :
    (P.ownerId ≠ uid →
      updateProject db uid pid dp =
        (.notFound "Project not found or you do not have permission to update it", db) ∧
      deleteProject db uid pid =
        (.notFound "Project not found or you do not have permission to delete it", db) ∧
      addMember db uid pid vuid role nid =
        (.notFound "Project not found or you do not have permission", db) ∧
      removeMember db uid pid rowId =
        (.notFound "Project not found or you do not have permission", db)) ∧
    (P.ownerId = uid →
      updateProject db uid pid dp =
        (.ok "Project updated successfully" (applyProjectUpdate dp P),
         { db with projects := db.projects.map fun q =>
            if q.id == pid then applyProjectUpdate dp q else q }) ∧
      deleteProject db uid pid =
        (.ok "Project deleted successfully" (), deleteProjectApply db pid) ∧
      (db.members.any (fun m => m.projectId == pid && m.userId == vuid) = false →
        addMember db uid pid vuid role nid =
          (.ok "Member added successfully" (memberRow nid pid vuid role),
           { db with members := db.members ++ [memberRow nid pid vuid role] })) ∧
      (db.members.any (fun m => m.id == rowId) = true →
        removeMember db uid pid rowId =
          (.ok "Member removed successfully" (),
           { db with members := db.members.filter fun m => m.id != rowId }))) := by
  constructor
  · intro hne
    have hfn : db.projects.find? (fun p => p.id == pid && p.ownerId == uid) = none := by
      apply find?_eq_none_of_any_eq_false
      cases hany : db.projects.any (fun p => p.id == pid && p.ownerId == uid) with
      | false => rfl
      | true =>
        exfalso
        obtain ⟨q, hq, hq2⟩ := List.any_eq_true.mp hany
        simp only [Bool.and_eq_true, beq_iff_eq] at hq2
        have hqP : q = P := List.inj_on_of_nodup_map hid hq hP (by rw [hq2.1, hpid])
        rw [hqP] at hq2
        exact hne hq2.2
    exact ⟨by simp [updateProject, hfn], by simp [deleteProject, hfn],
      by simp [addMember, hfn], by simp [removeMember, hfn]⟩
  · intro hown
    have hfs : db.projects.find? (fun p => p.id == pid && p.ownerId == uid) = some P := by
      apply find?_eq_some_of_unique hP
      · simp [hpid, hown]
      · intro b hb hpb
        simp only [Bool.and_eq_true, beq_iff_eq] at hpb
        exact List.inj_on_of_nodup_map hid hb hP (by rw [hpb.1, hpid])
    refine ⟨by simp [updateProject, hfs], by simp [deleteProject, hfs], ?_, ?_⟩
    · intro hdup
      have hfm := find?_eq_none_of_any_eq_false hdup
      simp [addMember, hfs, hfm]
    · intro hrow
      simp [removeMember, hfs, hrow]

/-- Witness for C6 amended at a concrete state: user 7 owns nothing, so a
project update and a member removal against project 1 both come back "not
found" unchanged. -/
theorem c6_owner_gated_mutations_witness :
    updateProject c6DB 7 1 {} =
      (.notFound "Project not found or you do not have permission to update it", c6DB) ∧
    removeMember c6DB 7 1 10 =
      (.notFound "Project not found or you do not have permission", c6DB) := by
  have h := (c6_owner_gated_mutations c6DB 7 1 10 0 0 {} none c6P1
    (by decide) (by decide) (by decide)).1 (by decide)
  exact ⟨h.1, h.2.2.2⟩

/-! ### C7: membership uniqueness under addMember -/

def c7P : Project :=
  { id := 1, name := "Delta", description := none, status := .ACTIVE,
    ownerId := 5, startDate := none, endDate := none, createdAt := 0 }

def c7DB : DB :=
  { users := [], projects := [c7P], members := [], tasks := [], comments := [] }

theorem pairCount_append_single (db : DB) (row : ProjectMember) (p2 v2 : Nat) :
    pairCount { db with members := db.members ++ [row] } p2 v2 =
      pairCount db p2 v2 + (if row.projectId == p2 && row.userId == v2 then 1 else 0) := by
  simp only [pairCount, List.filter_append, List.length_append]
  cases h : (row.projectId == p2 && row.userId == v2) with
  | false => simp [List.filter_cons, h]
  | true => simp [List.filter_cons, h]

/-- C7: for an owner-issued addMember call, a pair with no membership row
gains exactly one row, a pair that already has one is rejected with the
400 "already a member" branch and the state is unchanged; and one
addMember step never lifts any pair's row count above one, so the count
stays at most 1 across any sequence of addMember calls. -/
theorem c7_member_uniqueness (db : DB) (uid pid vuid nid p2 v2 : Nat)
    (role : Option String) (P : Project)
    (hid : (db.projects.map Project.id).Nodup) (hP : P ∈ db.projects)
    (hpid : P.id = pid) (hown : P.ownerId = uid) :
    (pairCount db pid vuid = 0 →
      addMember db uid pid vuid role nid =
        (.ok "Member added successfully" (memberRow nid pid vuid role),
         { db with members := db.members ++ [memberRow nid pid vuid role] }) ∧
      pairCount (addMember db uid pid vuid role nid).2 pid vuid = 1) ∧
    (1 ≤ pairCount db pid vuid →
      addMember db uid pid vuid role nid =
        (.badRequest "User is already a member of this project", db)) ∧
    (pairCount db p2 v2 ≤ 1 →
      pairCount (addMember db uid pid vuid role nid).2 p2 v2 ≤ 1) := by
  have hfs : db.projects.find? (fun p => p.id == pid && p.ownerId == uid) = some P := by
    apply find?_eq_some_of_unique hP
    · simp [hpid, hown]
    · intro b hb hpb
      simp only [Bool.and_eq_true, beq_iff_eq] at hpb
      exact List.inj_on_of_nodup_map hid hb hP (by rw [hpb.1, hpid])
  refine ⟨?_, ?_, ?_⟩
  · intro hz
    have hfm : db.members.find? (fun m => m.projectId == pid && m.userId == vuid) = none := by
      rw [List.find?_eq_none]
      rw [pairCount, List.length_eq_zero, List.filter_eq_nil_iff] at hz
      exact hz
    have hstep : addMember db uid pid vuid role nid =
        (.ok "Member added successfully" (memberRow nid pid vuid role),
         { db with members := db.members ++ [memberRow nid pid vuid role] }) := by
      simp [addMember, hfs, hfm]
    refine ⟨hstep, ?_⟩
    rw [hstep]
    show pairCount { db with members := db.members ++ [memberRow nid pid vuid role] } pid vuid = 1
    rw [pairCount_append_single]
    rw [hz]
    simp [memberRow]
  · intro hone
    cases hfm : db.members.find? (fun m => m.projectId == pid && m.userId == vuid) with
    | some m => simp [addMember, hfs, hfm]
    | none =>
      exfalso
      rw [List.find?_eq_none] at hfm
      have : pairCount db pid vuid = 0 := by
        rw [pairCount, List.length_eq_zero, List.filter_eq_nil_iff]
        exact hfm
      omega
  · intro hle
    cases hfm : db.members.find? (fun m => m.projectId == pid && m.userId == vuid) with
    | some m =>
      have : addMember db uid pid vuid role nid =
          (.badRequest "User is already a member of this project", db) := by
        simp [addMember, hfs, hfm]
      rw [this]
      exact hle
    | none =>
      have hstep : addMember db uid pid vuid role nid =
          (.ok "Member added successfully" (memberRow nid pid vuid role),
           { db with members := db.members ++ [memberRow nid pid vuid role] }) := by
        simp [addMember, hfs, hfm]
      rw [hstep]
      show pairCount { db with members := db.members ++ [memberRow nid pid vuid role] } p2 v2 ≤ 1
      rw [pairCount_append_single]
      cases hmatch : ((memberRow nid pid vuid role).projectId == p2 &&
          (memberRow nid pid vuid role).userId == v2) with
      | false => simpa using hle
      | true =>
        have hz : pairCount db pid vuid = 0 := by
          rw [List.find?_eq_none] at hfm
          rw [pairCount, List.length_eq_zero, List.filter_eq_nil_iff]
          exact hfm
        have hpv : pid = p2 ∧ vuid = v2 := by
          simp only [memberRow, Bool.and_eq_true, beq_iff_eq] at hmatch
          exact hmatch
        rw [← hpv.1, ← hpv.2, hz]
        simp

/-- Witness for C7 at a concrete state: adding user 6 to project 1 once
succeeds and leaves one row for the pair; adding again on the successor
state is rejected unchanged. -/
theorem c7_member_uniqueness_witness :
    (addMember c7DB 5 1 6 none 40 =
      (.ok "Member added successfully" (memberRow 40 1 6 none),
       { c7DB with members := c7DB.members ++ [memberRow 40 1 6 none] }) ∧
     pairCount (addMember c7DB 5 1 6 none 40).2 1 6 = 1) ∧
    addMember (addMember c7DB 5 1 6 none 40).2 5 1 6 none 41 =
      (.badRequest "User is already a member of this project",
       (addMember c7DB 5 1 6 none 40).2) := by
  refine ⟨(c7_member_uniqueness c7DB 5 1 6 40 1 6 none c7P
    (by decide) (by decide) (by decide) (by decide)).1 (by decide), ?_⟩
  exact (c7_member_uniqueness (addMember c7DB 5 1 6 none 40).2 5 1 6 41 1 6 none c7P
    (by decide) (by decide) (by decide) (by decide)).2.1 (by decide)

/-! ### C4: the assignee invariant under createTask and updateTask -/

def c4P : Project :=
  { id := 1, name := "Epsilon", description := none, status := .ACTIVE,
    ownerId := 5, startDate := none, endDate := none, createdAt := 0 }

/-- A task whose assignee is the project owner, so the invariant holds. -/
def c4T : Task :=
  { id := 1, title := "Well assigned", description := none, status := .TODO,
    priority := .LOW, projectId := 1, assigneeId := some 5, dueDate := none }

def c4DB : DB :=
  { users := [], projects := [c4P], members := [], tasks := [c4T], comments := [] }

/-- An update payload that reassigns the task to user 9, an outsider. -/
def c4Upd : UpdateTaskData :=
  { assigneeId := some (some 9) }

def c4CD : CreateTaskData :=
  { title := "Another", projectId := 1, assigneeId := some 5 }

def c4D2 : UpdateTaskData :=
  { status := some .DONE }

/-- C4 counterexample: the invariant holds, user 9 is neither owner nor
member of project 1, yet the owner's updateTask call that sets
assigneeId to 9 succeeds — updateTask performs no assignee validation
(task.controller.ts lines 298-320) — and the invariant is broken
afterwards. -/
theorem c4_update_task_skips_assignee_check :
    assigneeInvariant c4DB = true ∧
    projectVisible c4DB 9 c4P = false ∧
    (updateTask c4DB 5 1 c4Upd).1 =
      .ok "Task updated successfully" { c4T with assigneeId := some 9 } ∧
    assigneeInvariant (updateTask c4DB 5 1 c4Upd).2 = false := by
  decide

theorem assigneeOk_tasks_irrel (db : DB) (X : List Task) (t : Task) :
    assigneeOk { db with tasks := X } t = assigneeOk db t := rfl

theorem assigneeOk_eq_of (db : DB) (u t : Task)
    (h1 : u.assigneeId = t.assigneeId) (h2 : u.projectId = t.projectId) :
    assigneeOk db u = assigneeOk db t := by
  simp only [assigneeOk, h1, h2]

theorem assigneeInvariant_append (db : DB) (t : Task)
    (hinv : assigneeInvariant db = true) (ht : assigneeOk db t = true) :
    assigneeInvariant { db with tasks := db.tasks ++ [t] } = true := by
  unfold assigneeInvariant at hinv ⊢
  rw [List.all_eq_true] at hinv ⊢
  intro x hx
  rw [assigneeOk_tasks_irrel]
  rcases List.mem_append.mp hx with hx | hx
  · exact hinv x hx
  · rw [List.mem_singleton] at hx
    subst hx
    exact ht

theorem assigneeInvariant_map (db : DB) (g : Task → Task)
    (h : ∀ t ∈ db.tasks, assigneeOk db (g t) = true) :
    assigneeInvariant { db with tasks := db.tasks.map g } = true := by
  unfold assigneeInvariant
  rw [List.all_eq_true]
  intro x hx
  rw [assigneeOk_tasks_irrel]
  obtain ⟨t, ht, rfl⟩ := List.mem_map.mp hx
  exact h t ht

/-- C4 amended: createTask always preserves the invariant that a set
assignee is owner-or-member of the task's project (creation validates the
assignee), and updateTask preserves it provided the payload's assignee
field, when supplied and non-null, passes the visibility predicate for the
target task's project — the controller itself performs no such check on
update, which is exactly what the counterexample exploits. -/
theorem c4_invariant_preservation (db : DB) (uid nid tid : Nat)
    (cd : CreateTaskData) (d : UpdateTaskData)
    (hinv : assigneeInvariant db = true)
    (hd : ∀ a, d.assigneeId = some (some a) → ∀ t ∈ db.tasks, t.id = tid →
      (db.projects.any fun p => p.id == t.projectId && projectVisible db a p) = true) :
    assigneeInvariant (createTask db uid cd nid).2 = true ∧
    assigneeInvariant (updateTask db uid tid d).2 = true := by
  have hinvAll : ∀ x ∈ db.tasks, assigneeOk db x = true := by
    unfold assigneeInvariant at hinv
    exact List.all_eq_true.mp hinv
  constructor
  · cases hf : db.projects.find? (fun p => p.id == cd.projectId && projectVisible db uid p) with
    | none =>
      simp only [createTask, hf]
      exact hinv
    | some P =>
      cases ha : cd.assigneeId with
      | none =>
        simp only [createTask, hf, ha]
        exact assigneeInvariant_append db _ hinv (by simp [assigneeOk, mkTask, ha])
      | some a =>
        cases hacc : db.projects.any (fun p => p.id == cd.projectId && projectVisible db a p) with
        | false =>
          simp only [createTask, hf, ha, hacc, Bool.false_eq_true, if_false]
          exact hinv
        | true =>
          simp only [createTask, hf, ha, hacc, if_true]
          refine assigneeInvariant_append db _ hinv ?_
          simp only [assigneeOk, mkTask, ha]
          exact hacc
  · cases hf : db.tasks.find? (fun t => t.id == tid && taskVisible db uid t) with
    | none =>
      simp only [updateTask, hf]
      exact hinv
    | some t0 =>
      simp only [updateTask, hf]
      apply assigneeInvariant_map
      intro t ht
      cases hteq : (t.id == tid) with
      | false =>
        simp only [Bool.false_eq_true, if_false]
        exact hinvAll t ht
      | true =>
        simp only [if_true]
        cases hda : d.assigneeId with
        | none =>
          rw [assigneeOk_eq_of db (applyTaskUpdate d t) t (by simp [applyTaskUpdate, hda]) rfl]
          exact hinvAll t ht
        | some oa =>
          cases oa with
          | none => simp [assigneeOk, applyTaskUpdate, hda]
          | some a2 =>
            have hacc := hd a2 hda t ht (by simpa using hteq)
            simp only [assigneeOk, applyTaskUpdate, hda, Option.getD_some]
            exact hacc

/-- Witness for C4 amended at a concrete state: creating a task assigned
to the owner and a pure status update both keep the invariant. -/
theorem c4_invariant_preservation_witness :
    assigneeInvariant (createTask c4DB 5 c4CD 2).2 = true ∧
    assigneeInvariant (updateTask c4DB 5 1 c4D2).2 = true :=
  c4_invariant_preservation c4DB 5 2 1 c4CD c4D2 (by decide) (fun a h => nomatch h)

end TaskApp
